import Mathlib

/-
  Verification of the "new Yale" sparse matrix storage engine
  (ext/nmatrix/storage/yale.cpp) against its specification.

  The descriptor and its two parallel buffers are embedded shallowly:
  `ija` and `a` are Lean lists of length `capacity`, machine indices are
  `Nat`, and values are `Int` (the engine's algorithms are polymorphic in
  the value type; every claim below only needs exact arithmetic, where the
  C dtypes behave like `Int`).  Freshly allocated buffer cells are
  uninitialized in C; the model fills them with explicit junk parameters
  `jI : Nat` (for `ija`) and `jA : Int` (for `a`) so that theorems can
  either quantify over the junk or pin it to a concrete fill.
  Fallible operations return `Except YaleErr _`; `rb_raise` becomes
  `.error`.
-/

set_option autoImplicit false

namespace NMatrixYale

/-- Model of `YALE_STORAGE` (nmatrix.h): shape (`rank = 2`), capacity,
off-diagonal nonzero count, and the two parallel buffers `ija`/`a`. -/
structure YaleState where
  rows : Nat
  cols : Nat
  capacity : Nat
  ndnz : Nat
  ija : List Nat
  a : List Int
deriving DecidableEq

/-- Errors surfaced by the engine: `capacity` models
`rb_raise(rb_eNoMemError, "insertion size exceeded maximum yale matrix size")`
in `vector_insert_resize`, and `badPos` models
`rb_raise(rb_eArgError, "vector insert pos is before beginning of ja...")`
in `vector_insert`. -/
inductive YaleErr where
  | capacity
  | badPos
deriving DecidableEq

/-- Result of `set`: the source returns the characters `r` (replace)
and `i` (insert). -/
inductive SetResult where
  | replaced
  | inserted
deriving DecidableEq

/-- Source `get_size` (yale.cpp): `ija[shape[0]]`, the in-use length of
both buffers. -/
def get_size (s : YaleState) : Nat :=
  s.ija.getD s.rows 0

/-- Modelled from the spec: `NM_YALE_MAX_SIZE` lives in yale.h, which is not
under src/; §3.4 and §7 give `max_capacity = rows*cols + 1`. -/
def max_size (s : YaleState) : Nat :=
  s.rows * s.cols + 1

/-- Modelled from the spec: `GROWTH_CONSTANT` lives in yale.h, which is not
under src/; §3.4 names it with default 1.5 (a float in the source, exposed
as `YALE_GROWTH_CONSTANT`); `capacity * 1.5` truncated to an integer is
`capacity * 3 / 2` for the capacities of interest. -/
def grow (c : Nat) : Nat :=
  c * 3 / 2

/-- Modelled from the spec: `NM_YALE_MINIMUM` lives in yale.h, which is not
under src/.  §3.3 (I3) gives `min_cap = R + 1 + initial_off_diag` and the
concrete scenarios S1-S3 of §8.2 force a value that is consistent with
`initial_off_diag = R + 1`, i.e. `2*R + 2` (the header's "arbitrarily
defined" minimum).  Only C4 depends on this choice, and its result holds
for every minimum except exactly `R + 2`. -/
def yale_minimum (rows : Nat) : Nat :=
  2 * rows + 2

/-- Modelled from the spec: `nm_storage_count_max_elements` (storage
common code, not under src/) counts the cells of the rank-2 storage,
`rows * cols`. -/
def count_max_elements (rows cols : Nat) : Nat :=
  rows * cols

/-- Recursion of `binary_search` (yale.cpp lines 521-539), structural in
a fuel argument so that the model computes: the wrapper passes the
interval length `right + 1 - left`, which bounds the recursion depth
(each recursive call shrinks the interval by at least one, and at fuel 0
the interval is empty, the source's `left > right` base case).  The
source recurses on `mid - 1` with an unsigned index type; when `mid = 0`
that subtraction would wrap.  All in-engine calls have
`left ≥ rows + 1 ≥ 1`, so `mid ≥ left ≥ 1` there; the model cuts that
unreachable corner. -/
def binary_search_go (ija : List Nat) (key : Nat) : Nat → Nat → Nat → Option Nat
  | 0, _, _ => none
  | fuel + 1, left, right =>
    if left > right then none
    else
      let mid := (left + right) / 2
      if ija.getD mid 0 = key then some mid
      else if ija.getD mid 0 > key then
        if mid = 0 then none
        else binary_search_go ija key fuel left (mid - 1)
      else binary_search_go ija key fuel (mid + 1) right

/-- Source `binary_search`: search for `key` in `ija[left..right]`,
`-1` (here `none`) when absent. -/
def binary_search (ija : List Nat) (left right key : Nat) : Option Nat :=
  binary_search_go ija key (right + 1 - left) left right

/-- Recursion of `insert_search` (yale.cpp lines 685-707), fuelled like
`binary_search_go` (at fuel 0 the interval is empty, the source's
`left > right` base returning `(left, false)`), with the same `mid = 0`
unsigned-wrap guard. -/
def insert_search_go (ija : List Nat) (key : Nat) : Nat → Nat → Nat → Nat × Bool
  | 0, left, _ => (left, false)
  | fuel + 1, left, right =>
    if left > right then (left, false)
    else
      let mid := (left + right) / 2
      if ija.getD mid 0 = key then (mid, true)
      else if ija.getD mid 0 > key then
        if mid = 0 then (left, false)
        else insert_search_go ija key fuel left (mid - 1)
      else insert_search_go ija key fuel (mid + 1) right

/-- Source `insert_search`: binary search returning the insertion
position and a found flag. -/
def insert_search (ija : List Nat) (left right key : Nat) : Nat × Bool :=
  insert_search_go ija key (right + 1 - left) left right

/-- Helper for the copy loops of `vector_insert_resize`: for each
`i ∈ [lo, hi)` set `dst[i + shift] := src[i]`. -/
def copy_span {α : Type} (d : α) (src dst : List α) (lo hi shift : Nat) : List α :=
  (List.range' lo (hi - lo)).foldl (fun acc i => acc.set (i + shift) (src.getD i d)) dst

/-- Helper for the in-place branch of `vector_insert`: the loop
`for (i = 0; i < size - pos; ++i) buf[size+n-1-i] = buf[size-1-i]`,
which shifts `buf[pos..size)` right by `n`, reading the live buffer
(reads stay below all previous writes, as in the source). -/
def shift_tail {α : Type} (d : α) (l : List α) (size pos n : Nat) : List α :=
  (List.range (size - pos)).foldl
    (fun acc i => acc.set (size + n - 1 - i) (acc.getD (size - 1 - i) d)) l

/-- Helper for the final write loop of `vector_insert`:
`buf[pos+i] := xs[i]` for `i ∈ [0, n)`. -/
def write_vals {α : Type} (d : α) (l : List α) (pos : Nat) (xs : List α) (n : Nat) : List α :=
  (List.range n).foldl (fun acc i => acc.set (pos + i) (xs.getD i d)) l

/-- The allocation-and-copy tail of `vector_insert_resize` (yale.cpp lines
560-603), after the new capacity `nc` has been decided: allocate both
buffers (junk-filled), copy `[0, pos)` verbatim (`ija` always, `a` only
when not `struct_only`), then run the source's subsequent-copy loop
`for (i = pos; i < current_size - pos + n - 1; ++i) new[i+n] = old[i]`
- with the source's loop bound kept verbatim. -/
def build_resized (jI : Nat) (jA : Int) (s : YaleState) (currentSize pos n : Nat)
    (structOnly : Bool) (nc : Nat) : YaleState :=
  let ija1 := copy_span 0 s.ija (List.replicate nc jI) 0 pos 0
  let a1 := if structOnly then List.replicate nc jA
            else copy_span 0 s.a (List.replicate nc jA) 0 pos 0
  let ija2 := copy_span 0 s.ija ija1 pos (currentSize - pos + n - 1) n
  let a2 := if structOnly then a1
            else copy_span 0 s.a a1 pos (currentSize - pos + n - 1) n
  ⟨s.rows, s.cols, nc, s.ndnz, ija2, a2⟩

/-- Source `vector_insert_resize` (yale.cpp lines 546-604): grow the
capacity by `GROWTH_CONSTANT`, clamp to `NM_YALE_MAX_SIZE`, raise
NoMemError when even the clamped capacity cannot hold `current_size + n`,
bump the capacity to `current_size + n` when the grown capacity is still
too small, then reallocate and copy. -/
def vector_insert_resize (jI : Nat) (jA : Int) (s : YaleState)
    (currentSize pos n : Nat) (structOnly : Bool) : Except YaleErr YaleState :=
  let nc0 := grow s.capacity
  if nc0 > max_size s then
    if currentSize + n > max_size s then .error .capacity
    else
      let nc := if max_size s < currentSize + n then currentSize + n else max_size s
      .ok (build_resized jI jA s currentSize pos n structOnly nc)
  else
    let nc := if nc0 < currentSize + n then currentSize + n else nc0
    .ok (build_resized jI jA s currentSize pos n structOnly nc)

/-- Source `vector_insert` (yale.cpp lines 614-667): guard `pos <
shape[0]`, resize when `size + n > capacity`, otherwise shift the tail in
place (`a` only when not `struct_only`), then write the new columns and
values at `[pos, pos + n)`. -/
def vector_insert (jI : Nat) (jA : Int) (s : YaleState) (pos : Nat)
    (j : List Nat) (val : List Int) (n : Nat) (structOnly : Bool) :
    Except YaleErr YaleState :=
  if pos < s.rows then .error .badPos
  else
    let size := get_size s
    if size + n > s.capacity then
      match vector_insert_resize jI jA s size pos n structOnly with
      | .error e => .error e
      | .ok s1 =>
        let ija2 := write_vals 0 s1.ija pos j n
        let a2 := if structOnly then s1.a else write_vals 0 s1.a pos val n
        .ok ⟨s1.rows, s1.cols, s1.capacity, s1.ndnz, ija2, a2⟩
    else
      let ija1 := shift_tail 0 s.ija size pos n
      let a1 := if structOnly then s.a else shift_tail 0 s.a size pos n
      let ija2 := write_vals 0 ija1 pos j n
      let a2 := if structOnly then a1 else write_vals 0 a1 pos val n
      .ok ⟨s.rows, s.cols, s.capacity, s.ndnz, ija2, a2⟩

/-- Source `increment_ia_after` (yale.cpp lines 672-680): add `n` to
`ija[i+1 .. ijaSize]` (inclusive upper end). -/
def increment_ia_after (ija : List Nat) (ijaSize i n : Nat) : List Nat :=
  (List.range' (i + 1) (ijaSize - i)).foldl
    (fun acc idx => acc.set idx (acc.getD idx 0 + n)) ija

/-- Source `set` (yale.cpp lines 319-363): diagonal write, empty-row
insert, or binary insertion search followed by replace / insert;
successful inserts bump the row ends after the row and `ndnz`. -/
def set (jI : Nat) (jA : Int) (s : YaleState) (r c : Nat) (v : Int) :
    Except YaleErr (SetResult × YaleState) :=
  if r = c then
    .ok (.replaced, ⟨s.rows, s.cols, s.capacity, s.ndnz, s.ija, s.a.set r v⟩)
  else if s.ija.getD r 0 = s.ija.getD (r + 1) 0 then
    match vector_insert jI jA s (s.ija.getD r 0) [c] [v] 1 false with
    | .error e => .error e
    | .ok s1 =>
      .ok (.inserted, ⟨s1.rows, s1.cols, s1.capacity, s1.ndnz + 1,
            increment_ia_after s1.ija s1.rows r 1, s1.a⟩)
  else
    match insert_search s.ija (s.ija.getD r 0) (s.ija.getD (r + 1) 0 - 1) c with
    | (pos, true) =>
      .ok (.replaced, ⟨s.rows, s.cols, s.capacity, s.ndnz, s.ija.set pos c, s.a.set pos v⟩)
    | (pos, false) =>
      match vector_insert jI jA s pos [c] [v] 1 false with
      | .error e => .error e
      | .ok s1 =>
        .ok (.inserted, ⟨s1.rows, s1.cols, s1.capacity, s1.ndnz + 1,
              increment_ia_after s1.ija s1.rows r 1, s1.a⟩)

/-- Source `ref` (yale.cpp lines 286-309), with the returned pointer read
back as a value: the diagonal cell, the canonical zero `a[shape[0]]` for
an empty row or a missed search, or the found entry's value. -/
def ref (s : YaleState) (r c : Nat) : Int :=
  if r = c then s.a.getD r 0
  else if s.ija.getD r 0 = s.ija.getD (r + 1) 0 then s.a.getD s.rows 0
  else
    match binary_search s.ija (s.ija.getD r 0) (s.ija.getD (r + 1) 0 - 1) c with
    | some pos => if s.ija.getD pos 0 = c then s.a.getD pos 0 else s.a.getD s.rows 0
    | none => s.a.getD s.rows 0

/-- Source `nm_yale_storage_create` (yale.cpp lines 968-996) for rank 2:
clamp the requested capacity below by `NM_YALE_MINIMUM` and above by
`nm_storage_count_max_elements(s) - shape[0] + 1`, then allocate both
buffers (uninitialized, here junk-filled). -/
def nm_yale_storage_create (jI : Nat) (jA : Int) (rows cols initCapacity : Nat) :
    YaleState :=
  let maxCapacity := count_max_elements rows cols - rows + 1
  let cap :=
    if initCapacity < yale_minimum rows then yale_minimum rows
    else if initCapacity > maxCapacity then maxCapacity
    else initCapacity
  ⟨rows, cols, cap, 0, List.replicate cap jI, List.replicate cap jA⟩

/-- Source `init` (yale.cpp lines 263-274): set `ija[0..R]` to `R + 1`
and clear the diagonal and the canonical zero.  `clear_diagonal_and_zero`
lives in yale.h, not under src/; modelled from the spec (§3.4): "clears
the diagonal to the zero of `value_type`, and writes the canonical zero
at `a[R]`", i.e. `a[0..R] := 0`. -/
def init (s : YaleState) : YaleState :=
  let iaInit := s.rows + 1
  let ija1 := (List.range iaInit).foldl (fun l i => l.set i iaInit) s.ija
  let a1 := (List.range (s.rows + 1)).foldl (fun l i => l.set i (0 : Int)) s.a
  ⟨s.rows, s.cols, s.capacity, s.ndnz, ija1, a1⟩

/-- Run a sequence of `set` calls left to right, stopping at the first
error; the scenarios of the spec are such sequences. -/
def runSets (jI : Nat) (jA : Int) (s : YaleState) (ops : List (Nat × Nat × Int)) :
    Except YaleErr YaleState :=
  ops.foldl
    (fun acc op =>
      match acc with
      | .error e => .error e
      | .ok st => (set jI jA st op.1 op.2.1 op.2.2).map (fun p => p.2))
    (.ok s)

/-- The column indices stored for row `i`: `ija[ija[i] .. ija[i+1])`. -/
def row_cols (s : YaleState) (i : Nat) : List Nat :=
  (List.range' (s.ija.getD i 0) (s.ija.getD (i + 1) 0 - s.ija.getD i 0)).map
    (fun p => s.ija.getD p 0)

/-- Strict increase of a column list, the row-sortedness invariant I1. -/
def strictly_increasing : List Nat → Bool
  | [] => true
  | [_] => true
  | x :: y :: t => decide (x < y) && strictly_increasing (y :: t)

/-- The matrix denoted by a descriptor, per the spec's data model (§3.2):
`a[i]` on the diagonal, the stored value for a stored off-diagonal
column, and the numeric zero for a missing one. -/
def cell (s : YaleState) (i j : Nat) : Int :=
  if i = j then s.a.getD i 0
  else
    match (List.range' (s.ija.getD i 0) (s.ija.getD (i + 1) 0 - s.ija.getD i 0)).find?
        (fun p => s.ija.getD p 0 == j) with
    | some p => s.a.getD p 0
    | none => 0

/-- Source `ndrow_is_empty` (yale.cpp lines 499-511): the off-diagonal
slice `[ija, ijaNext)` is empty or holds only zeros. -/
def ndrow_is_empty (a : List Int) (ija ijaNext : Nat) : Bool :=
  (List.range' ija (ijaNext - ija)).all (fun p => a.getD p 0 == 0)

/-- The while loop of `ndrow_eqeq_ndrow` (yale.cpp lines 436-490),
fuelled because the source loop need not terminate.  State: the two
cursors, the two current columns, the stale minimum `ja`, and the two
no-more flags.  Every branch is kept verbatim, including the two source
defects: the right-advance branch reads `ra[r_ija]` even when the right
row is already exhausted, and on exhausting the right cursor it sets
`l_no_more` instead of `r_no_more`. -/
def ndrow_walk (la ra : List Int) (lij rij : List Nat) (lNext rNext : Nat) :
    Nat → Nat → Nat → Nat → Nat → Nat → Bool → Bool → Option Bool
  | 0, _, _, _, _, _, _, _ => none
  | fuel + 1, lIja, rIja, lJa, rJa, ja, lNoMore, rNoMore =>
    if lNoMore && rNoMore then some true
    else if lJa = rJa then
      if ra.getD rIja 0 ≠ la.getD lIja 0 then some false
      else
        let lIja' := lIja + 1
        let rIja' := rIja + 1
        let lJa' := if lIja' < lNext then lij.getD lIja' 0 else lJa
        let lNoMore' := if lIja' < lNext then lNoMore else true
        let rJa' := if rIja' < rNext then rij.getD rIja' 0 else rJa
        let rNoMore' := if rIja' < rNext then rNoMore else true
        ndrow_walk la ra lij rij lNext rNext fuel lIja' rIja' lJa' rJa'
          (min lJa' rJa') lNoMore' rNoMore'
    else if lNoMore || decide (ja < lJa) then
      if ra.getD rIja 0 ≠ 0 then some false
      else
        let rIja' := rIja + 1
        if rIja' < rNext then
          ndrow_walk la ra lij rij lNext rNext fuel lIja rIja' lJa (rij.getD rIja' 0)
            (min lJa (rij.getD rIja' 0)) lNoMore rNoMore
        else
          ndrow_walk la ra lij rij lNext rNext fuel lIja rIja' lJa rJa ja true rNoMore
    else if rNoMore || decide (ja < rJa) then
      if la.getD lIja 0 ≠ 0 then some false
      else
        let lIja' := lIja + 1
        if lIja' < lNext then
          ndrow_walk la ra lij rij lNext rNext fuel lIja' rIja (lij.getD lIja' 0) rJa
            (min (lij.getD lIja' 0) rJa) lNoMore rNoMore
        else
          ndrow_walk la ra lij rij lNext rNext fuel lIja' rIja lJa rJa ja true rNoMore
    else
      ndrow_walk la ra lij rij lNext rNext fuel lIja rIja lJa rJa ja lNoMore rNoMore

/-- Source `ndrow_eqeq_ndrow` (yale.cpp lines 421-494): initialize the
merge walk over two non-empty off-diagonal rows. -/
def ndrow_eqeq_ndrow (fuel : Nat) (la ra : List Int) (lij rij : List Nat)
    (lIja lNext rIja rNext : Nat) : Option Bool :=
  let lJa := lij.getD lIja 0
  let rJa := rij.getD rIja 0
  ndrow_walk la ra lij rij lNext rNext fuel lIja rIja lJa rJa (min lJa rJa) false false

/-- The per-row loop of `eqeq` (yale.cpp lines 387-410). -/
def eqeq_rows (fuel : Nat) (l r : YaleState) : List Nat → Option Bool
  | [] => some true
  | i :: rest =>
    let lIja := l.ija.getD i 0
    let lNext := l.ija.getD (i + 1) 0
    let rIja := r.ija.getD i 0
    let rNext := r.ija.getD (i + 1) 0
    if ndrow_is_empty l.a lIja lNext then
      if ndrow_is_empty r.a rIja rNext then eqeq_rows fuel l r rest else some false
    else if ndrow_is_empty r.a rIja rNext then some false
    else
      match ndrow_eqeq_ndrow fuel l.a r.a l.ija r.ija lIja lNext rIja rNext with
      | none => none
      | some false => some false
      | some true => eqeq_rows fuel l r rest

/-- Source `eqeq` (yale.cpp lines 374-413): compare diagonals
element-wise, then compare each off-diagonal row, treating all-zero rows
as empty.  `none` means the source loop ran past the given fuel. -/
def eqeq (fuel : Nat) (l r : YaleState) : Option Bool :=
  if (List.range l.rows).all (fun i => l.a.getD i 0 == r.a.getD i 0) then
    eqeq_rows fuel l r (List.range l.rows)
  else some false

/-- Source `copy_alloc_struct` (yale.cpp lines 757-777): fresh descriptor
with `rhs`'s shape and `ndnz`, the given capacity, the first
`get_size rhs` entries of `ija` copied, and `a` left uninitialized
(junk-filled in the model). -/
def copy_alloc_struct (jI : Nat) (jA : Int) (rhs : YaleState) (newCapacity : Nat) :
    YaleState :=
  let ija1 := copy_span 0 rhs.ija (List.replicate newCapacity jI) 0 (get_size rhs) 0
  ⟨rhs.rows, rhs.cols, newCapacity, rhs.ndnz, ija1, List.replicate newCapacity jA⟩

/-- Loop body of `create_merged` for one entry of the right operand's row
`i` (yale.cpp lines 220-250).  State: the evolving result, the cursors
`ija` and `ija_next`, and the function-scoped `ins_type` variable
(`none` while still unassigned).  Kept verbatim from the source: the
column inserted is `sija[ija]` (the result's own buffer contents), not
the right operand's column, and in the non-empty branch the return value
of `vector_insert` is discarded, so `ins_type` keeps its previous
value. -/
def merge_row_step (jI : Nat) (jA : Int) (i : Nat)
    (st : YaleState × Nat × Nat × Option SetResult) :
    Except YaleErr (YaleState × Nat × Nat × Option SetResult) :=
  let s := st.1
  let ija := st.2.1
  let ijaNext := st.2.2.1
  let insType := st.2.2.2
  let ja := s.ija.getD ija 0
  if ija = ijaNext then
    match vector_insert jI jA s ija [ja] [] 1 true with
    | .error e => .error e
    | .ok s1 =>
      let s2 : YaleState := ⟨s1.rows, s1.cols, s1.capacity, s1.ndnz + 1,
        increment_ia_after s1.ija s1.rows i 1, s1.a⟩
      let insType' : Option SetResult := some .inserted
      let ijaNext' := if insType' = some SetResult.inserted then ijaNext + 1 else ijaNext
      .ok (s2, ija + 1, ijaNext', insType')
  else
    match insert_search s.ija ija (ijaNext - 1) ja with
    | (pos, true) => .ok (s, pos + 1, ijaNext, insType)
    | (pos, false) =>
      match vector_insert jI jA s pos [ja] [] 1 true with
      | .error e => .error e
      | .ok s1 =>
        let s2 : YaleState := ⟨s1.rows, s1.cols, s1.capacity, s1.ndnz + 1,
          increment_ia_after s1.ija s1.rows i 1, s1.a⟩
        let ijaNext' := if insType = some SetResult.inserted then ijaNext + 1 else ijaNext
        .ok (s2, pos + 1, ijaNext', insType)

/-- Source `create_merged` (yale.cpp lines 197-255): copy the left
operand's structure, copy the canonical zero slot, then walk the right
operand's rows running `merge_row_step` once per right entry.  The
source's `right && right != left` pointer guard is the distinct-operands
case, the one the merge claim is about. -/
def create_merged (jI : Nat) (jA : Int) (left right : YaleState) :
    Except YaleErr YaleState :=
  let s0 := copy_alloc_struct jI jA left (max left.capacity right.capacity)
  let s1 : YaleState := ⟨s0.rows, s0.cols, s0.capacity, s0.ndnz, s0.ija,
    s0.a.set s0.rows (left.a.getD left.rows 0)⟩
  match (List.range s1.rows).foldlM
      (fun (acc : YaleState × Option SetResult) i =>
        ((List.range' (right.ija.getD i 0)
            (right.ija.getD (i + 1) 0 - right.ija.getD i 0)).foldlM
          (fun st _rIja => merge_row_step jI jA i st)
          (acc.1, acc.1.ija.getD i 0, acc.1.ija.getD (i + 1) 0, acc.2)).map
          (fun st => (st.1, st.2.2.2)))
      (s1, none) with
  | .error e => .error e
  | .ok sOut => .ok sOut.1

/-- The positions `p` walked for row `i` of an old-Yale input:
`[ir[i], ir[i+1])`. -/
def old_yale_row_range (ir : List Nat) (i : Nat) : List Nat :=
  List.range' (ir.getD i 0) (ir.getD (i + 1) 0 - ir.getD i 0)

/-- Pass 1 of `create_from_old_yale` (yale.cpp lines 141-150): count the
entries whose column differs from their row. -/
def old_yale_ndnz (rows : Nat) (ir jr : List Nat) : Nat :=
  ((List.range rows).map
    (fun i => ((old_yale_row_range ir i).filter (fun p => jr.getD p 0 != i)).length)).sum

/-- One entry of pass 2 of `create_from_old_yale` (yale.cpp lines
170-180): a diagonal entry is written to `a[i]` (and `pp` stays put, the
source's `--pp` cancelling the loop increment); a non-diagonal entry is
written to `ija[pp]`/`a[pp]` and `pp` advances.  The `a` buffer holds
`Option Int` so that a slot never written stays `none`. -/
def old_yale_fill_entry (i : Nat) (jr : List Nat) (ar : List Int)
    (st : List Nat × List (Option Int) × Nat) (p : Nat) :
    List Nat × List (Option Int) × Nat :=
  if jr.getD p 0 = i then (st.1, st.2.1.set i (some (ar.getD p 0)), st.2.2)
  else (st.1.set st.2.2 (jr.getD p 0), st.2.1.set st.2.2 (some (ar.getD p 0)), st.2.2 + 1)

/-- Row `i` of pass 2 of `create_from_old_yale`. -/
def old_yale_fill_row (i : Nat) (ir jr : List Nat) (ar : List Int)
    (st : List Nat × List (Option Int) × Nat) : List Nat × List (Option Int) × Nat :=
  (old_yale_row_range ir i).foldl (old_yale_fill_entry i jr ar) st

/-- Source `create_from_old_yale` (yale.cpp lines 134-189): count `ndnz`,
allocate `capacity = rows + ndnz + 1` (both buffers uninitialized: the
`a` buffer starts as all-`none`), fill the rows starting at
`pp = rows + 1`, then set the sentinel `ija[rows] = pp` and the canonical
zero `a[rows] = 0`.  Returns `(ija, a, ndnz)`. -/
def create_from_old_yale (rows : Nat) (ir jr : List Nat) (ar : List Int) :
    List Nat × List (Option Int) × Nat :=
  let ndnz := old_yale_ndnz rows ir jr
  let cap := rows + ndnz + 1
  let st := (List.range rows).foldl (fun st i => old_yale_fill_row i ir jr ar st)
    (List.replicate cap 0, List.replicate cap (none : Option Int), rows + 1)
  (st.1.set rows st.2.2, st.2.1.set rows (some 0), ndnz)

/-! ### Helper lemmas about `List.set` / `List.getD` -/

theorem getD_set_ne {α : Type} (l : List α) (i j : Nat) (v d : α) (h : i ≠ j) :
    (l.set i v).getD j d = l.getD j d := by
  induction l generalizing i j with
  | nil => rfl
  | cons x t ih =>
    cases i with
    | zero =>
      cases j with
      | zero => exact absurd rfl h
      | succ j => rfl
    | succ i =>
      cases j with
      | zero => rfl
      | succ j => simpa [List.set, List.getD] using ih i j (by omega)

theorem getD_set_self {α : Type} (l : List α) (i : Nat) (v d : α) (h : i < l.length) :
    (l.set i v).getD i d = v := by
  induction l generalizing i with
  | nil => simp at h
  | cons x t ih =>
    cases i with
    | zero => rfl
    | succ i => simpa [List.set, List.getD] using ih i (by simp at h; exact h)

theorem getD_replicate_self {α : Type} (n i : Nat) (x : α) :
    (List.replicate n x).getD i x = x := by
  induction n generalizing i with
  | zero => rfl
  | succ n ih =>
    cases i with
    | zero => rfl
    | succ i => simp [List.replicate, List.getD]

/-! ### Invariants of the old-Yale import loops (claim C10) -/

theorem old_yale_fill_entry_inv (k t : Nat) (rows : Nat) (jr : List Nat) (ar : List Int)
    (st : List Nat × List (Option Int) × Nat) (p : Nat)
    (hpp : rows + 1 ≤ st.2.2) (ht : t < rows)
    (hk : jr.getD p 0 = k → k ≠ t) :
    rows + 1 ≤ (old_yale_fill_entry k jr ar st p).2.2 ∧
      (old_yale_fill_entry k jr ar st p).2.1.getD t none = st.2.1.getD t none ∧
      (old_yale_fill_entry k jr ar st p).2.1.length = st.2.1.length := by
  unfold old_yale_fill_entry
  split
  case isTrue h =>
    exact ⟨hpp, getD_set_ne _ _ _ _ _ (hk h), by simp⟩
  case isFalse h =>
    refine ⟨?_, ?_, ?_⟩
    · show rows + 1 ≤ st.2.2 + 1
      omega
    · show (st.2.1.set st.2.2 (some (ar.getD p 0))).getD t none = st.2.1.getD t none
      exact getD_set_ne _ _ _ _ _ (by omega)
    · show (st.2.1.set st.2.2 (some (ar.getD p 0))).length = st.2.1.length
      simp

theorem old_yale_fill_list_inv (k t : Nat) (rows : Nat) (jr : List Nat) (ar : List Int)
    (ps : List Nat) (st : List Nat × List (Option Int) × Nat)
    (hpp : rows + 1 ≤ st.2.2) (ht : t < rows)
    (hk : ∀ p ∈ ps, jr.getD p 0 = k → k ≠ t) :
    rows + 1 ≤ (ps.foldl (old_yale_fill_entry k jr ar) st).2.2 ∧
      (ps.foldl (old_yale_fill_entry k jr ar) st).2.1.getD t none = st.2.1.getD t none ∧
      (ps.foldl (old_yale_fill_entry k jr ar) st).2.1.length = st.2.1.length := by
  induction ps generalizing st with
  | nil => exact ⟨hpp, rfl, rfl⟩
  | cons p ps ih =>
    obtain ⟨h1, h2, h3⟩ :=
      old_yale_fill_entry_inv k t rows jr ar st p hpp ht (hk p (by simp))
    obtain ⟨h4, h5, h6⟩ :=
      ih (old_yale_fill_entry k jr ar st p) h1 (fun q hq => hk q (by simp [hq]))
    exact ⟨h4, h5.trans h2, h6.trans h3⟩

theorem old_yale_fill_rows_inv (t : Nat) (rows : Nat) (ir jr : List Nat) (ar : List Int)
    (ks : List Nat) (st : List Nat × List (Option Int) × Nat)
    (hpp : rows + 1 ≤ st.2.2) (ht : t < rows)
    (hks : ∀ k ∈ ks, ∀ p ∈ old_yale_row_range ir k, jr.getD p 0 = k → k ≠ t) :
    rows + 1 ≤ (ks.foldl (fun st i => old_yale_fill_row i ir jr ar st) st).2.2 ∧
      (ks.foldl (fun st i => old_yale_fill_row i ir jr ar st) st).2.1.getD t none
        = st.2.1.getD t none ∧
      (ks.foldl (fun st i => old_yale_fill_row i ir jr ar st) st).2.1.length
        = st.2.1.length := by
  induction ks generalizing st with
  | nil => exact ⟨hpp, rfl, rfl⟩
  | cons k ks ih =>
    obtain ⟨h1, h2, h3⟩ :=
      old_yale_fill_list_inv k t rows jr ar (old_yale_row_range ir k) st hpp ht
        (hks k (by simp))
    obtain ⟨h4, h5, h6⟩ :=
      ih (old_yale_fill_row k ir jr ar st) h1 (fun q hq => hks q (by simp [hq]))
    refine ⟨h4, ?_, ?_⟩
    · exact h5.trans (by simpa [old_yale_fill_row] using h2)
    · exact h6.trans (by simpa [old_yale_fill_row] using h3)

/-- The `a` buffer produced by `create_from_old_yale`, with its `let`
bindings unfolded. -/
theorem create_from_old_yale_a_eq (rows : Nat) (ir jr : List Nat) (ar : List Int) :
    (create_from_old_yale rows ir jr ar).2.1 =
      (((List.range rows).foldl (fun st i => old_yale_fill_row i ir jr ar st)
        (List.replicate (rows + old_yale_ndnz rows ir jr + 1) 0,
         List.replicate (rows + old_yale_ndnz rows ir jr + 1) (none : Option Int),
         rows + 1)).2.1).set rows (some 0) := rfl

/-! ### Concrete descriptors used by the claims -/

/-- Well-formed 3x4 descriptor at full capacity 6: row 0 stores (0,2)=7
and (0,3)=8 at positions 4 and 5, rows 1 and 2 are empty. -/
def c1_state : YaleState := ⟨3, 4, 6, 2, [4, 6, 6, 6, 2, 3], [0, 0, 0, 0, 7, 8]⟩

/-- The same layout as `c1_state`, used to exercise
`vector_insert_resize` directly. -/
def c3_state : YaleState := ⟨3, 4, 6, 2, [4, 6, 6, 6, 2, 3], [0, 0, 0, 0, 7, 8]⟩

/-- The spec's scenario S2 state: 3x3, diagonal 1,2,3, one off-diagonal
entry (0,2)=7, reached from scenario S1 (see `scenario_s3_insert_and_shift`). -/
def s2_state : YaleState := ⟨3, 3, 8, 1, [4, 5, 5, 5, 2, 0, 0, 0], [1, 2, 3, 0, 7, 0, 0, 0]⟩

/-- The spec's scenario S3 state: S2 plus (0,1)=5. -/
def s3_state : YaleState := ⟨3, 3, 8, 2, [4, 6, 6, 6, 1, 2, 0, 0], [1, 2, 3, 0, 5, 7, 0, 0]⟩

/-- Well-formed 2x3 descriptor: row 0 stores (0,1)=7 and (0,2)=3, row 1
is empty; diagonal 1,1. -/
def l5_state : YaleState := ⟨2, 3, 5, 2, [3, 5, 5, 1, 2], [1, 1, 0, 7, 3]⟩

/-- Well-formed 2x3 descriptor: row 0 stores (0,1)=7, row 1 stores an
explicit zero at (1,0); diagonal 1,1.  Denotes a different matrix from
`l5_state`: it lacks the 3 at (0,2). -/
def r5_state : YaleState := ⟨2, 3, 5, 2, [3, 4, 5, 1, 0], [1, 1, 0, 7, 0]⟩

/-- Well-formed 2x3 descriptor: row 0 stores (0,1)=7 and an explicit
stored zero at (0,2), row 1 stores (1,0)=9; diagonal 4,4. -/
def a6_state : YaleState := ⟨2, 3, 6, 3, [3, 5, 6, 1, 2, 0], [4, 4, 0, 7, 0, 9]⟩

/-- The same matrix as `a6_state` but without the stored zero at (0,2). -/
def b6_state : YaleState := ⟨2, 3, 5, 2, [3, 4, 5, 1, 0], [4, 4, 0, 7, 9]⟩

/-- Well-formed 2x2 descriptor: row 0 empty, row 1 stores (1,0)=5;
diagonal 1,2. -/
def l7_state : YaleState := ⟨2, 2, 5, 1, [3, 3, 4, 0, 0], [1, 2, 0, 5, 0]⟩

/-- Well-formed 2x2 descriptor: row 0 stores (0,1)=9, row 1 empty;
diagonal 1,2. -/
def r7_state : YaleState := ⟨2, 2, 5, 1, [3, 4, 4, 1, 0], [1, 2, 0, 9, 0]⟩

/-- The descriptor `create_merged` actually produces from `l7_state` and
`r7_state` (with zero junk fill): row 0 = column 0, row 1 = column 0. -/
def m7_state : YaleState := ⟨2, 2, 5, 2, [3, 4, 5, 0, 0], [0, 0, 0, 0, 0]⟩

/-- Well-formed 3x3 descriptor at capacity 6 with size 6: row 0 stores
(0,1)=7, row 1 stores (1,2)=9, row 2 empty. -/
def c8_state : YaleState := ⟨3, 3, 6, 2, [4, 5, 6, 6, 1, 2], [0, 0, 0, 0, 7, 9]⟩

/-! ### The claims -/

/-- Claim C1: the spec's round-trip law `set(D,(r,c),v); ref(D,(r,c)) == v`
fails on the code when the write triggers a resize that must move entries
of the same row sitting behind the insertion point: on `c1_state`
(which stores (0,2)=7, witnessed by the first conjunct), `set (0,1) 5`
succeeds but the following `ref (0,1)` returns the canonical zero 0, not
5, because `vector_insert_resize` left the row tail uninitialized (junk
modelled as zero-filled fresh memory) and the binary search gets lost in
it. -/
theorem set_then_ref_after_resize_returns_zero :
    ref c1_state 0 2 = 7 ∧
    (set 0 0 c1_state 0 1 5).map (fun p => ref p.2 0 1) = .ok 0 ∧
    (0 : Int) ≠ 5 :=
  ⟨rfl, rfl, by decide⟩

/-- Claim C2: starting from a freshly initialized 3x3 descriptor
(requested capacity 4), the in-bounds sequence (0,2)=7, (1,0)=6, (1,2)=3,
(2,1)=4, (0,1)=5 of `set` calls breaks the row-sortedness invariant I1:
the last `set` resizes, the defective copy loop loses the tail, and row
1's stored column slice becomes two copies of the junk fill value -
never strictly increasing, checked here for two different fills of the
freshly allocated memory (0 and 7). -/
theorem set_sequence_breaks_row_sortedness :
    (runSets 0 0 (init (nm_yale_storage_create 0 0 3 3 4))
        [(0, 2, 7), (1, 0, 6), (1, 2, 3), (2, 1, 4), (0, 1, 5)]).map
      (fun s => strictly_increasing (row_cols s 1)) = .ok false ∧
    (runSets 7 7 (init (nm_yale_storage_create 7 7 3 3 4))
        [(0, 2, 7), (1, 0, 6), (1, 2, 3), (2, 1, 4), (0, 1, 5)]).map
      (fun s => strictly_increasing (row_cols s 1)) = .ok false :=
  ⟨rfl, rfl⟩

/-- Claim C3: `vector_insert_resize` does not copy the elements behind
the insertion point: on `c3_state` with `current_size = 6`, `pos = 4`,
`n = 1`, its subsequent-copy loop `for (i = pos; i < current_size - pos +
n - 1; ++i)` runs for `i ∈ [4, 2)`, i.e. never, so the two stored entries
at positions 4 and 5 (columns 2 and 3, values 7 and 8) are dropped and
positions 4-8 of the new buffers hold only the junk fill - for every
junk value - where the claim requires `ija[5] = 2` and `a[5] = 7`. -/
theorem vector_insert_resize_drops_tail :
    (∀ (jI : Nat) (jA : Int),
      vector_insert_resize jI jA c3_state 6 4 1 false =
        .ok ⟨3, 4, 9, 2, [4, 6, 6, 6, jI, jI, jI, jI, jI],
             [0, 0, 0, 0, jA, jA, jA, jA, jA]⟩) ∧
    c3_state.ija.getD 4 0 = 2 ∧ c3_state.a.getD 4 0 = 7 :=
  ⟨fun _ _ => rfl, rfl, rfl⟩

/-- Claim C4: the spec's scenario S1-S3.  Creating 3x3 (64-bit float
values modelled as exact integers) with requested capacity 4, setting
(0,0)=1, (1,1)=2, (2,2)=3, (0,2)=7 reaches exactly `s2_state` with
`ija[4] = 2`, `a[4] = 7`, `ija[0..4] = [4,5,5,5]` and `size = 5`; then
`set (0,1) 5` finds insertion position 4, shifts the (0,2) entry, and
yields `ija[4..6] = [1,2]`, `a[4..6] = [5,7]`, `ija[0..4] = [4,6,6,6]`. -/
theorem scenario_s3_insert_and_shift :
    runSets 0 0 (init (nm_yale_storage_create 0 0 3 3 4))
        [(0, 0, 1), (1, 1, 2), (2, 2, 3), (0, 2, 7)] = .ok s2_state ∧
    s2_state.ija.getD 4 0 = 2 ∧ s2_state.a.getD 4 0 = 7 ∧
    s2_state.ija.take 4 = [4, 5, 5, 5] ∧ get_size s2_state = 5 ∧
    insert_search s2_state.ija 4 4 1 = (4, false) ∧
    runSets 0 0 s2_state [(0, 1, 5)] = .ok s3_state ∧
    (s3_state.ija.drop 4).take 2 = [1, 2] ∧
    (s3_state.a.drop 4).take 2 = [5, 7] ∧
    s3_state.ija.take 4 = [4, 6, 6, 6] :=
  ⟨rfl, rfl, rfl, rfl, rfl, rfl, rfl, rfl, rfl, rfl⟩

/-- Claim C5: `eqeq` is not an equivalence with the denoted matrix
function: on the well-formed same-shape pair `l5_state` / `r5_state`
(row-sortedness checked in the last conjuncts) it terminates with `true`
although the two matrices differ at (0,2) - the walk exhausts the right
row, then follows the stale minimum into the right-advance branch,
reads the right value buffer at the row boundary (an explicit zero of
the next row) and ends the row early, never seeing the left's entry 3. -/
theorem eqeq_true_on_unequal_matrices :
    eqeq 32 l5_state r5_state = some true ∧
    cell l5_state 0 2 = 3 ∧ cell r5_state 0 2 = 0 ∧
    strictly_increasing (row_cols l5_state 0) = true ∧
    strictly_increasing (row_cols r5_state 0) = true ∧
    strictly_increasing (row_cols r5_state 1) = true := by
  decide

/-- Claim C6: `eqeq` rejects an explicit stored zero: `a6_state` differs
from `b6_state` only by the explicit stored zero at (0,2) (stored column
2, stored value 0, second and third conjuncts) and both denote the same
matrix function (fourth conjunct), yet `eqeq` returns `false`: after
`b6_state`'s row 0 is exhausted the walk reads `b6_state`'s value buffer
at the row boundary - the 9 of row 1 - and treats it as a mismatching
current-row entry. -/
theorem eqeq_false_on_stored_zero :
    eqeq 32 a6_state b6_state = some false ∧
    a6_state.ija.getD 4 0 = 2 ∧ a6_state.a.getD 4 0 = 0 ∧
    ((List.range 2).all (fun i =>
      (List.range 3).all (fun j => cell a6_state i j == cell b6_state i j)) = true) ∧
    row_cols b6_state 0 = [1] := by
  decide

/-- Claim C7: `create_merged` does not build the structural union: with
`l7_state` (row 0 empty) and `r7_state` (row 0 = column 1), the union of
the row-0 column sets is {1}, but the merge inserts `sija[ija]` - the
result's own buffer contents, here the column 0 read from the left's
row-1 data - so the merged row 0 is {0}; and since `copy_alloc_struct`
never copies `a`, the merged diagonal is the junk fill 0, not the left
operand's diagonal value 1. -/
theorem create_merged_not_union :
    create_merged 0 0 l7_state r7_state = .ok m7_state ∧
    row_cols m7_state 0 = [0] ∧ row_cols l7_state 0 = [] ∧ row_cols r7_state 0 = [1] ∧
    m7_state.a.getD 0 0 = 0 ∧ l7_state.a.getD 0 0 = 1 :=
  ⟨rfl, rfl, rfl, rfl, rfl, rfl⟩

/-- Claim C8 (counterexample): an insertion of `n = 5` entries into
`c8_state` has `size + n = 11 > 10 = max_capacity`, yet `vector_insert`
succeeds - the grown capacity `6 * 3/2 = 9` is not above `max_capacity`,
so the source never reaches its raise and instead bumps the new capacity
to `size + n = 11`, beyond `max_capacity`. -/
theorem vector_insert_no_error_beyond_max :
    vector_insert 0 0 c8_state 4 [3, 4, 5, 6, 7] [1, 1, 1, 1, 1] 5 false =
      .ok ⟨3, 3, 11, 2, [4, 5, 6, 6, 3, 4, 5, 6, 7, 1, 2],
           [0, 0, 0, 0, 1, 1, 1, 1, 1, 7, 9]⟩ ∧
    get_size c8_state + 5 > max_size c8_state ∧ 11 > max_size c8_state :=
  ⟨rfl, by decide, by decide⟩

/-- Claim C8 (amended): an insertion of `n` entries fails with
CapacityExceeded exactly when the position guard passes, `size + n`
exceeds the capacity (so a resize is attempted), and both the grown
capacity `capacity * GROWTH_CONSTANT` and `size + n` exceed
`max_capacity`; in particular CapacityExceeded is never raised when
`size + n ≤ max_capacity` (and, the raise being first, the descriptor is
untouched on failure). -/
theorem vector_insert_capacity_error_iff (jI : Nat) (jA : Int) (s : YaleState)
    (pos : Nat) (j : List Nat) (val : List Int) (n : Nat) (so : Bool) :
    vector_insert jI jA s pos j val n so = .error .capacity ↔
      ¬ pos < s.rows ∧ get_size s + n > s.capacity ∧
        grow s.capacity > max_size s ∧ get_size s + n > max_size s := by
  unfold vector_insert vector_insert_resize
  by_cases h1 : pos < s.rows
  · simp [h1]
  · by_cases h2 : get_size s + n > s.capacity
    · by_cases h3 : grow s.capacity > max_size s
      · by_cases h4 : get_size s + n > max_size s
        · simp [h1, h2, h3, h4]
        · simp [h1, h2, h3, h4]
      · simp [h1, h2, h3]
    · simp [h1, h2]

/-- Claim C9 (counterexample): creating a 3x3 descriptor with requested
capacity 11 - larger than `rows*cols + 1 = 10` - yields capacity 7, not
the claimed `rows*cols + 1`: the source clamps to
`nm_storage_count_max_elements - rows + 1 = 7`. -/
theorem create_capacity_not_spec_max :
    (nm_yale_storage_create 0 0 3 3 11).capacity = 7 ∧
    (7 : Nat) ≠ 3 * 3 + 1 ∧ 11 > 3 * 3 + 1 := by
  decide

/-- Claim C9 (amended): for a request at least the minimum capacity,
`create` returns the request clamped above by
`nm_storage_count_max_elements - rows + 1 = rows*cols - rows + 1`; in
particular a larger request yields exactly `rows*cols - rows + 1`. -/
theorem create_capacity_clamp (jI : Nat) (jA : Int) (rows cols req : Nat)
    (h : yale_minimum rows ≤ req) :
    (nm_yale_storage_create jI jA rows cols req).capacity =
      min req (count_max_elements rows cols - rows + 1) := by
  unfold nm_yale_storage_create
  have h1 : ¬ req < yale_minimum rows := by omega
  by_cases h2 : req > count_max_elements rows cols - rows + 1
  · simp [h1, h2]
    omega
  · simp [h1, h2]
    omega

/-- Claim C9 (witness for the amended theorem): requesting 8 on a 3x3
shape (minimum is 8) yields `min 8 7 = 7`. -/
theorem create_capacity_clamp_witness :
    yale_minimum 3 ≤ 8 ∧
    (nm_yale_storage_create 0 0 3 3 8).capacity =
      min 8 (count_max_elements 3 3 - 3 + 1) :=
  ⟨by decide, create_capacity_clamp 0 0 3 3 8 (by decide)⟩

/-- Claim C10: `create_from_old_yale` writes the diagonal slot `a[i]`
only when row `i` of the input holds an explicit entry with column `i`:
for every row without such an entry the slot is never written (it stays
`none`, the model of uninitialized memory), while the canonical zero
slot `a[rows]` is always explicitly zeroed. -/
theorem create_from_old_yale_diagonal_writes (rows : Nat) (ir jr : List Nat)
    (ar : List Int) (i : Nat) (hi : i < rows)
    (hnd : ∀ p ∈ old_yale_row_range ir i, jr.getD p 0 ≠ i) :
    (create_from_old_yale rows ir jr ar).2.1.getD i none = none ∧
    (create_from_old_yale rows ir jr ar).2.1.getD rows none = some 0 := by
  have hks : ∀ k ∈ List.range rows, ∀ p ∈ old_yale_row_range ir k,
      jr.getD p 0 = k → k ≠ i := by
    intro k _ p hp heq
    by_cases hk : k = i
    · subst hk
      exact absurd heq (hnd p hp)
    · exact hk
  obtain ⟨_, hpres, hlen⟩ :=
    old_yale_fill_rows_inv i rows ir jr ar (List.range rows)
      (List.replicate (rows + old_yale_ndnz rows ir jr + 1) 0,
       List.replicate (rows + old_yale_ndnz rows ir jr + 1) (none : Option Int),
       rows + 1)
      (le_refl _) hi hks
  rw [create_from_old_yale_a_eq]
  constructor
  · rw [getD_set_ne _ _ _ _ _ (show rows ≠ i by omega), hpres]
    exact getD_replicate_self _ _ _
  · refine getD_set_self _ _ _ _ ?_
    rw [hlen]
    simp
    omega

/-- Claim C10 (witness): a 2-row input whose rows hold only off-diagonal
entries leaves both diagonal slots unwritten, and the canonical zero slot
is written. -/
theorem create_from_old_yale_diagonal_writes_witness :
    (0 < 2 ∧ ∀ p ∈ old_yale_row_range [0, 1, 2] 0, [1, 0].getD p 0 ≠ 0) ∧
    ((create_from_old_yale 2 [0, 1, 2] [1, 0] [5, 7]).2.1.getD 0 none = none ∧
     (create_from_old_yale 2 [0, 1, 2] [1, 0] [5, 7]).2.1.getD 2 none = some 0) :=
  ⟨⟨by decide, by decide⟩,
    create_from_old_yale_diagonal_writes 2 [0, 1, 2] [1, 0] [5, 7] 0
      (by decide) (by decide)⟩

end NMatrixYale
